import Mathlib

/-!
# rdpgw: the process wiring of `cmd/rdpgw/main.go`

`main` is embedded as a function from the outside world it talks to (the
configuration loader, OIDC discovery, the environment, the file system, the
certificate loader and the listeners) to the ordered list of effects it
performs.  `log.Fatal` ends the process, hence the list.

The packages `security`, `protocol`, `api`, `common` and `config` are only
called by `main.go`.  Where a property is decided by one of them, the missing
operation is modelled from the design document and is marked as such.
-/

namespace Rdpgw

/-- A Go `[]byte`: one natural number below 256 for each byte. -/
abbrev Bytes := List Nat

/-- The Go conversion `[]byte(s)`: the UTF-8 bytes of the string. -/
def bytesOf (s : String) : Bytes := s.toUTF8.data.toList.map UInt8.toNat

/-- A Go `error` value, known by its text. -/
structure GoError where
  text : String
  deriving DecidableEq, Repr

/-! ## `config`: the loaded configuration, with the fields `main` reads -/

namespace config

/-- Modelled from the spec: the declaration of `config.Configuration` is not in
`main.go`; this is the `Server` section with the fields `main` reads, each with
the type its use in `main` requires. -/
structure ServerConfig where
  GatewayAddress : String
  SessionKey : String
  SessionEncryptionKey : String
  Hosts : List String
  ServeHTTPS : Bool
  CertFile : String
  KeyFile : String
  Port : Int
  SendBuf : Int
  ReceiveBuf : Int
  deriving DecidableEq, Repr

/-- Modelled from the spec: the `Security` section with the fields `main` reads. -/
structure SecurityConfig where
  VerifyClientIp : Bool
  PAATokenSigningKey : String
  PAATokenEncryptionKey : String
  UserTokenEncryptionKey : String
  UserTokenSigningKey : String
  EnableUserToken : Bool
  deriving DecidableEq, Repr

/-- Modelled from the spec: the `OpenId` section with the fields `main` reads. -/
structure OpenIdConfig where
  ProviderUrl : String
  ClientId : String
  ClientSecret : String
  deriving DecidableEq, Repr

/-- Modelled from the spec: the `Caps` section with the fields `main` reads. -/
structure CapsConfig where
  IdleTimeout : Int
  TokenAuth : Bool
  SmartCardAuth : Bool
  EnableClipboard : Bool
  EnableDrive : Bool
  EnablePrinter : Bool
  EnablePort : Bool
  EnablePnp : Bool
  DisableRedirect : Bool
  RedirectAll : Bool
  deriving DecidableEq, Repr

/-- Modelled from the spec: the `Client` section with the fields `main` reads. -/
structure ClientConfig where
  NetworkAutoDetect : Int
  UsernameTemplate : String
  BandwidthAutoDetect : Int
  ConnectionType : Int
  SplitUserDomain : Bool
  DefaultDomain : String
  deriving DecidableEq, Repr

/-- Modelled from the spec: `config.Configuration`, the value `config.Load`
returns, as far as `main` reads it. -/
structure Configuration where
  Server : ServerConfig
  Security : SecurityConfig
  OpenId : OpenIdConfig
  Caps : CapsConfig
  Client : ClientConfig
  deriving DecidableEq, Repr

end config

/-! ## Library values `main` builds -/

namespace oauth2

/-- The `oauth2.Endpoint` of a provider. -/
structure Endpoint where
  AuthURL : String
  TokenURL : String
  deriving DecidableEq, Repr

/-- The `oauth2.Config` literal of `main`. -/
structure Config where
  ClientID : String
  ClientSecret : String
  RedirectURL : String
  Endpoint : Endpoint
  Scopes : List String
  deriving DecidableEq, Repr

end oauth2

namespace oidc

/-- The constant `oidc.ScopeOpenID`. -/
def ScopeOpenID : String := "openid"

/-- The `oidc.Config` literal of `main`. -/
structure Config where
  ClientID : String
  deriving DecidableEq, Repr

/-- A discovered OIDC provider: its issuer and the endpoint it reports. -/
structure Provider where
  issuer : String
  endpoint : oauth2.Endpoint
  deriving DecidableEq, Repr

/-- The value `provider.Verifier(oidcConfig)` returns. -/
structure IDTokenVerifier where
  provider : Provider
  config : Config
  deriving DecidableEq, Repr

/-- The method `provider.Verifier`. -/
def Provider.Verifier (p : Provider) (c : Config) : IDTokenVerifier := ⟨p, c⟩

/-- The method `provider.Endpoint`. -/
def Provider.Endpoint (p : Provider) : oauth2.Endpoint := p.endpoint

end oidc

namespace security

/-- The functions of package `security` that `main` passes on as values. -/
inductive Func where
  | GeneratePAAToken
  | GenerateUserToken
  | VerifyPAAToken
  | VerifyServerFunc
  deriving DecidableEq, Repr

end security

namespace api

/-- The `api.Config` literal of `main`. -/
structure Config where
  GatewayAddress : String
  OAuth2Config : oauth2.Config
  OIDCTokenVerifier : oidc.IDTokenVerifier
  PAATokenGenerator : security.Func
  UserTokenGenerator : security.Func
  EnableUserToken : Bool
  SessionKey : Bytes
  SessionEncryptionKey : Bytes
  Hosts : List String
  NetworkAutoDetect : Int
  UsernameTemplate : String
  BandwidthAutoDetect : Int
  ConnectionType : Int
  SplitUserDomain : Bool
  DefaultDomain : String
  deriving DecidableEq, Repr

end api

namespace protocol

/-- The `protocol.RedirectFlags` literal of `main`. -/
structure RedirectFlags where
  Clipboard : Bool
  Drive : Bool
  Printer : Bool
  Port : Bool
  Pnp : Bool
  DisableAll : Bool
  EnableAll : Bool
  deriving DecidableEq, Repr

/-- The `protocol.ServerConf` literal of `main`. -/
structure ServerConf where
  IdleTimeout : Int
  TokenAuth : Bool
  SmartCardAuth : Bool
  RedirectFlags : RedirectFlags
  VerifyTunnelCreate : security.Func
  VerifyServerFunc : security.Func
  SendBuf : Int
  ReceiveBuf : Int
  deriving DecidableEq, Repr

/-- The `protocol.Gateway` literal of `main`. -/
structure Gateway where
  ServerConf : ServerConf
  deriving DecidableEq, Repr

end protocol

namespace os

/-- An open file, known by the name it was opened under. -/
structure File where
  name : String
  deriving DecidableEq, Repr

end os

namespace tls

/-- A loaded key pair: the certificate chain, one byte string per certificate. -/
structure Certificate where
  chain : List Bytes
  deriving DecidableEq, Repr

/-- The fields of `tls.Config` that `main` touches. -/
structure Config where
  Certificates : List Certificate
  KeyLogWriter : Option os.File
  deriving DecidableEq, Repr

end tls

namespace http

/-- The functions `main` turns into handlers. -/
inductive FuncRef where
  | HandleGatewayProtocol (gw : protocol.Gateway)
  | HandleDownload (a : api.Config)
  | TokenInfo (a : api.Config)
  | HandleCallback (a : api.Config)
  deriving DecidableEq, Repr

/-- The handler values `main` builds. -/
inductive Handler where
  | HandlerFunc (f : FuncRef)
  | EnrichContext (next : Handler)
  | Authenticated (a : api.Config) (next : Handler)
  | promhttpHandler
  deriving DecidableEq, Repr

/-- An entry of the `TLSNextProto` map; `main` never builds one. -/
structure NextProtoFunc where
  name : String
  deriving DecidableEq, Repr

/-- The fields of `http.Server` that `main` sets.  A Go map is `none` when nil and
`some` of its entries otherwise. -/
structure Server where
  Addr : String
  TLSConfig : Option tls.Config
  TLSNextProto : Option (List (String × NextProtoFunc))
  deriving DecidableEq, Repr

end http

namespace strconv

/-- The library function `strconv.Itoa`: the decimal rendering of an integer. -/
def Itoa (i : Int) : String :=
  if i < 0 then "-" ++ Nat.repr i.natAbs else Nat.repr i.toNat

end strconv

/-! ## Effects and the outside world -/

/-- An argument of a `log` call. -/
inductive LogArg where
  | str (s : String)
  | err (e : GoError)
  deriving DecidableEq, Repr

/-- The effects of `main`, in the order of the source. -/
inductive Event where
  | StringVarP (name shorthand value usage : String)
  | configLoad (file : String)
  | setVerifyClientIP (b : Bool)
  | setSigningKey (k : Bytes)
  | setEncryptionKey (k : Bytes)
  | setUserEncryptionKey (k : Bytes)
  | setUserSigningKey (k : Bytes)
  | oidcNewProvider (url : String)
  | setOIDCProvider (p : oidc.Provider)
  | setOauth2Config (c : oauth2.Config)
  | NewApi (a : api.Config)
  | logFatalf (format : String) (args : List LogArg)
  | logFatal (args : List LogArg)
  | logPrintf (format : String) (args : List LogArg)
  | osGetenv (name : String)
  | osOpenFile (name : String)
  | httpHandle (pattern : String) (h : http.Handler)
  | LoadX509KeyPair (certFile keyFile : String)
  | ListenAndServeTLS (server : http.Server) (certFile keyFile : String)
  | ListenAndServe (addr : String) (handler : Option http.Handler)
  deriving DecidableEq, Repr

/-- What the outside answers to the calls of `main`. -/
structure World where
  /-- The command line, `os.Args[1:]`. -/
  Args : List String
  /-- The call `config.Load(file)`. -/
  Load : String → config.Configuration
  /-- The call `oidc.NewProvider(ctx, url)`. -/
  NewProvider : String → Except GoError oidc.Provider
  /-- The call `os.Getenv(name)`. -/
  Getenv : String → String
  /-- The call `os.OpenFile(name, ...)`. -/
  OpenFile : String → Except GoError os.File
  /-- The call `tls.LoadX509KeyPair(certFile, keyFile)`. -/
  LoadX509KeyPair : String → String → Except GoError tls.Certificate
  /-- The error `server.ListenAndServeTLS` comes back with, if it does. -/
  ListenAndServeTLS : http.Server → Option GoError
  /-- The error `http.ListenAndServe` comes back with, if it does. -/
  ListenAndServe : String → Option GoError

/-! ## `main` -/

namespace pflag

/-- The library method `FlagSet.StringVarP(p, name, shorthand, value, usage)`: it
registers the flag and stores the default `value` in `*p`.  The result is the new
content of `*p`; only a later `Parse` of the flag set would change it. -/
def StringVarP (_name _shorthand value _usage : String) : String := value

end pflag

/-- The error check after the listener came back (lines 146-148). -/
def listenCheck (err : Option GoError) : List Event :=
  match err with
  | some e => [.logFatal [.str "ListenAndServe: ", .err e]]
  | none => []

/-- The `protocol.ServerConf` that `main` builds (lines 102-119). -/
def handlerConfig (conf : config.Configuration) : protocol.ServerConf :=
  { IdleTimeout := conf.Caps.IdleTimeout
    TokenAuth := conf.Caps.TokenAuth
    SmartCardAuth := conf.Caps.SmartCardAuth
    RedirectFlags :=
      { Clipboard := conf.Caps.EnableClipboard
        Drive := conf.Caps.EnableDrive
        Printer := conf.Caps.EnablePrinter
        Port := conf.Caps.EnablePort
        Pnp := conf.Caps.EnablePnp
        DisableAll := conf.Caps.DisableRedirect
        EnableAll := conf.Caps.RedirectAll }
    VerifyTunnelCreate := .VerifyPAAToken
    VerifyServerFunc := .VerifyServerFunc
    SendBuf := conf.Server.SendBuf
    ReceiveBuf := conf.Server.ReceiveBuf }

/-- The `oauth2.Config` that `main` builds (lines 55-61). -/
def oauthConfig (conf : config.Configuration) (provider : oidc.Provider) : oauth2.Config :=
  { ClientID := conf.OpenId.ClientId
    ClientSecret := conf.OpenId.ClientSecret
    RedirectURL := "https://" ++ conf.Server.GatewayAddress ++ "/callback"
    Endpoint := provider.Endpoint
    Scopes := [oidc.ScopeOpenID, "profile", "email"] }

/-- The `api.Config` that `main` builds (lines 65-81). -/
def apiConfig (conf : config.Configuration) (provider : oidc.Provider) : api.Config :=
  { GatewayAddress := conf.Server.GatewayAddress
    OAuth2Config := oauthConfig conf provider
    OIDCTokenVerifier := provider.Verifier { ClientID := conf.OpenId.ClientId }
    PAATokenGenerator := .GeneratePAAToken
    UserTokenGenerator := .GenerateUserToken
    EnableUserToken := conf.Security.EnableUserToken
    SessionKey := bytesOf conf.Server.SessionKey
    SessionEncryptionKey := bytesOf conf.Server.SessionEncryptionKey
    Hosts := conf.Server.Hosts
    NetworkAutoDetect := conf.Client.NetworkAutoDetect
    UsernameTemplate := conf.Client.UsernameTemplate
    BandwidthAutoDetect := conf.Client.BandwidthAutoDetect
    ConnectionType := conf.Client.ConnectionType
    SplitUserDomain := conf.Client.SplitUserDomain
    DefaultDomain := conf.Client.DefaultDomain }

/-- The five route registrations of `main` (lines 124-128).  `http.HandleFunc(p, f)`
is `http.Handle(p, http.HandlerFunc(f))`. -/
def routes (gw : protocol.Gateway) (a : api.Config) : List Event :=
  [ .httpHandle "/remoteDesktopGateway/" (.EnrichContext (.HandlerFunc (.HandleGatewayProtocol gw))),
    .httpHandle "/connect" (.EnrichContext (.Authenticated a (.HandlerFunc (.HandleDownload a)))),
    .httpHandle "/metrics" .promhttpHandler,
    .httpHandle "/tokeninfo" (.HandlerFunc (.TokenInfo a)),
    .httpHandle "/callback" (.HandlerFunc (.HandleCallback a)) ]

/-- Lines 101-148 of `main`: the gateway, the routes and the listener.  In the
HTTPS branch `cert, err := ...` declares a new `err` inside the block, and the
result of `ListenAndServeTLS` is assigned to that one: the `err` tested at line
146 is still the nil of line 46. -/
def serve (w : World) (conf : config.Configuration) (cfg : tls.Config) (a : api.Config) :
    List Event :=
  let gw : protocol.Gateway := { ServerConf := handlerConfig conf }
  routes gw a ++
  (if conf.Server.ServeHTTPS then
    Event.LoadX509KeyPair conf.Server.CertFile conf.Server.KeyFile ::
    (match w.LoadX509KeyPair conf.Server.CertFile conf.Server.KeyFile with
     | .error err => [.logFatal [.err err]]
     | .ok cert =>
       let cfg : tls.Config := { cfg with Certificates := cfg.Certificates ++ [cert] }
       let server : http.Server :=
         { Addr := ":" ++ strconv.Itoa conf.Server.Port
           TLSConfig := some cfg
           TLSNextProto := some [] }
       let _err := w.ListenAndServeTLS server
       Event.ListenAndServeTLS server "" "" :: listenCheck none)
  else
    let err := w.ListenAndServe (":" ++ strconv.Itoa conf.Server.Port)
    Event.ListenAndServe (":" ++ strconv.Itoa conf.Server.Port) none :: listenCheck err)

/-- Lines 88-99 of `main`, then `serve`: the TLS configuration and the optional
key log file named by `SSLKEYLOGFILE`. -/
def keyLog (w : World) (conf : config.Configuration) (a : api.Config) : List Event :=
  let cfg : tls.Config := { Certificates := [], KeyLogWriter := none }
  let tlsDebug := w.Getenv "SSLKEYLOGFILE"
  Event.logPrintf "Starting remote desktop gateway server" [] ::
  Event.osGetenv "SSLKEYLOGFILE" ::
  (if tlsDebug != "" then
    Event.osOpenFile tlsDebug ::
    (match w.OpenFile tlsDebug with
     | .error err =>
       [.logFatalf "Cannot open key log file %s for writing %s" [.str tlsDebug, .err err]]
     | .ok f =>
       Event.logPrintf "Key log file set to: %s" [.str tlsDebug] ::
       serve w conf { cfg with KeyLogWriter := some f } a)
  else
    serve w conf cfg a)

/-- Lines 45-86 of `main`, then `keyLog`: OIDC discovery, the API object and the
certificate file check.  The call `api.NewApi()` is taken to come back. -/
def oidcSetup (w : World) (conf : config.Configuration) : List Event :=
  Event.oidcNewProvider conf.OpenId.ProviderUrl ::
  (match w.NewProvider conf.OpenId.ProviderUrl with
   | .error err => [.logFatalf "Cannot get oidc provider: %s" [.err err]]
   | .ok provider =>
     let a := apiConfig conf provider
     Event.setOIDCProvider provider ::
     Event.setOauth2Config (oauthConfig conf provider) ::
     Event.NewApi a ::
     (if conf.Server.ServeHTTPS && (conf.Server.CertFile == "" || conf.Server.KeyFile == "") then
       [.logFatal [.str "Both certfile and keyfile need to be specified"]]
     else
       keyLog w conf a))

/-- The name `main` passes to `config.Load`: the content of `configFile` after
line 34.  Nothing between line 34 and line 35 parses the command line. -/
def configFile (_w : World) : String :=
  pflag.StringVarP "conf" "c" "rdpgw.yaml" "config file (json, yaml, ini)"

/-- The configuration `main` works with: `conf = config.Load(configFile)`. -/
def conf (w : World) : config.Configuration := w.Load (configFile w)

/-- Lines 33-43 of `main`: the flag, the configuration and the keys. -/
def keySetup (w : World) : List Event :=
  [ .StringVarP "conf" "c" "rdpgw.yaml" "config file (json, yaml, ini)",
    .configLoad (configFile w),
    .setVerifyClientIP (conf w).Security.VerifyClientIp,
    .setSigningKey (bytesOf (conf w).Security.PAATokenSigningKey),
    .setEncryptionKey (bytesOf (conf w).Security.PAATokenEncryptionKey),
    .setUserEncryptionKey (bytesOf (conf w).Security.UserTokenEncryptionKey),
    .setUserSigningKey (bytesOf (conf w).Security.UserTokenSigningKey) ]

/-- The function `main`: every effect it performs, in order. -/
def main (w : World) : List Event :=
  keySetup w ++ oidcSetup w (conf w)

/-! ## The process-wide state of package `security` -/

namespace security

/-- The package-level variables of `security` that `main` assigns. -/
structure Globals where
  VerifyClientIP : Bool
  SigningKey : Bytes
  EncryptionKey : Bytes
  UserEncryptionKey : Bytes
  UserSigningKey : Bytes
  OIDCProvider : Option oidc.Provider
  Oauth2Config : Option oauth2.Config
  deriving DecidableEq, Repr

/-- The variables before `main` runs: Go zero values. -/
def Globals.zero : Globals :=
  { VerifyClientIP := false, SigningKey := [], EncryptionKey := [], UserEncryptionKey := [],
    UserSigningKey := [], OIDCProvider := none, Oauth2Config := none }

/-- The effect of one event on the variables. -/
def Globals.step (g : Globals) : Event → Globals
  | .setVerifyClientIP b => { g with VerifyClientIP := b }
  | .setSigningKey k => { g with SigningKey := k }
  | .setEncryptionKey k => { g with EncryptionKey := k }
  | .setUserEncryptionKey k => { g with UserEncryptionKey := k }
  | .setUserSigningKey k => { g with UserSigningKey := k }
  | .setOIDCProvider p => { g with OIDCProvider := some p }
  | .setOauth2Config c => { g with Oauth2Config := some c }
  | _ => g

/-- The variables after a run. -/
def Globals.after (t : List Event) : Globals := t.foldl Globals.step Globals.zero

end security

/-! ## Reading a run -/

/-- The events that assign one of the four keys. -/
def Event.isKeyAssign : Event → Bool
  | .setSigningKey _ => true
  | .setEncryptionKey _ => true
  | .setUserEncryptionKey _ => true
  | .setUserSigningKey _ => true
  | _ => false

/-- The events that register a route or start a listener. -/
def Event.isServing : Event → Bool
  | .httpHandle _ _ => true
  | .ListenAndServeTLS _ _ _ => true
  | .ListenAndServe _ _ => true
  | _ => false

/-- Whether the event assigns `security.SigningKey`. -/
def Event.isSetSigningKey : Event → Bool
  | .setSigningKey _ => true
  | _ => false

/-- Whether the event assigns `security.EncryptionKey`. -/
def Event.isSetEncryptionKey : Event → Bool
  | .setEncryptionKey _ => true
  | _ => false

/-- Whether the event assigns `security.UserSigningKey`. -/
def Event.isSetUserSigningKey : Event → Bool
  | .setUserSigningKey _ => true
  | _ => false

/-- Whether the event assigns `security.UserEncryptionKey`. -/
def Event.isSetUserEncryptionKey : Event → Bool
  | .setUserEncryptionKey _ => true
  | _ => false

/-- The events of lines 33-43: the flag, the configuration load, and the
assignments of `security.VerifyClientIP` and of the keys. -/
def Event.isInit : Event → Bool
  | .StringVarP _ _ _ _ => true
  | .configLoad _ => true
  | .setVerifyClientIP _ => true
  | e => e.isKeyAssign

/-- The events of lines 33-43 together with the two assignments of lines 62-63
and a `log.Fatal` of one string. -/
def Event.isEarly : Event → Bool
  | .logFatal [.str _] => true
  | .setOIDCProvider _ => true
  | .setOauth2Config _ => true
  | e => e.isInit

/-- The events of lines 124-148: route registration, certificate loading and the
listeners. -/
def Event.isLate : Event → Bool
  | .LoadX509KeyPair _ _ => true
  | e => e.isServing

/-- The route table of `main` as pairs of pattern and handler. -/
def routeTable (gw : protocol.Gateway) (a : api.Config) : List (String × http.Handler) :=
  [ ("/remoteDesktopGateway/", .EnrichContext (.HandlerFunc (.HandleGatewayProtocol gw))),
    ("/connect", .EnrichContext (.Authenticated a (.HandlerFunc (.HandleDownload a)))),
    ("/metrics", .promhttpHandler),
    ("/tokeninfo", .HandlerFunc (.TokenInfo a)),
    ("/callback", .HandlerFunc (.HandleCallback a)) ]

/-- Every key assignment of the run comes before its first route registration or
listener start: from the first serving event on, no event assigns a key. -/
def keysBeforeServing (t : List Event) : Bool :=
  (t.dropWhile (fun e => !e.isServing)).all (fun e => !e.isKeyAssign)

/-- The files the run passed to `config.Load`. -/
def loadedFiles (t : List Event) : List String :=
  t.filterMap (fun e => match e with
    | .configLoad f => some f
    | _ => none)

/-- The routes the run registered, in order. -/
def registered (t : List Event) : List (String × http.Handler) :=
  t.filterMap (fun e => match e with
    | .httpHandle p h => some (p, h)
    | _ => none)

/-- Whether a request given to the handler can end in the gateway's
`HandleGatewayProtocol`. -/
def http.Handler.dispatchesToGateway : http.Handler → Bool
  | .HandlerFunc (.HandleGatewayProtocol _) => true
  | .HandlerFunc _ => false
  | .EnrichContext next => next.dispatchesToGateway
  | .Authenticated _ next => next.dispatchesToGateway
  | .promhttpHandler => false

/-- Whether every path into `HandleGatewayProtocol` inside the handler goes
through `common.EnrichContext` first. -/
def http.Handler.gatewayBehindEnrich : http.Handler → Bool
  | .HandlerFunc (.HandleGatewayProtocol _) => false
  | .HandlerFunc _ => true
  | .EnrichContext _ => true
  | .Authenticated _ next => next.gatewayBehindEnrich
  | .promhttpHandler => true

/-- The run ended in `log.Fatal(msg)`. -/
def abortsWith (t : List Event) (msg : String) : Prop :=
  t.getLast? = some (.logFatal [.str msg])

instance (t : List Event) (msg : String) : Decidable (abortsWith t msg) := by
  unfold abortsWith; infer_instance

/-- The file the command line names with `--conf` or `-c`, read the way the flag
library reads a command line: the value is the next argument after `--conf` or
`-c`, or what follows `--conf=`, `-c=` or `-c` in the same argument; a later flag
replaces an earlier one; a flag with no value names nothing; `--` ends the flags.
Any other argument is passed over.  `named` is the file named so far. -/
def confFlagFrom (named : Option String) : List String → Option String
  | [] => named
  | a :: rest =>
    if a == "--" then named
    else if a == "--conf" || a == "-c" then
      match rest with
      | [] => named
      | v :: rest₁ => confFlagFrom (some v) rest₁
    else if a.startsWith "--conf=" then confFlagFrom (some (a.drop 7)) rest
    else if a.startsWith "-c=" && 3 < a.length then confFlagFrom (some (a.drop 3)) rest
    else if a.startsWith "-c" then confFlagFrom (some (a.drop 2)) rest
    else confFlagFrom named rest

/-- The file the command line names with `--conf` or `-c`, if it names one. -/
def confFlag (args : List String) : Option String := confFlagFrom none args

/-- The configuration file the command line asks for: the one named by the
`--conf` / `-c` flag, and `rdpgw.yaml` when the flag is not given. -/
def requestedConfigFile (args : List String) : String :=
  (confFlag args).getD "rdpgw.yaml"

/-! ## Sample inputs -/

/-- A configuration for plain HTTP on port 9443. -/
def sampleConf : config.Configuration :=
  { Server :=
      { GatewayAddress := "gw.example.org", SessionKey := "0123456789abcdef0123456789abcdef",
        SessionEncryptionKey := "fedcba9876543210fedcba9876543210", Hosts := ["rdp-host-1"],
        ServeHTTPS := false, CertFile := "", KeyFile := "", Port := 9443,
        SendBuf := 4096, ReceiveBuf := 8192 }
    Security :=
      { VerifyClientIp := true, PAATokenSigningKey := "sign", PAATokenEncryptionKey := "encr",
        UserTokenEncryptionKey := "uenc", UserTokenSigningKey := "usig", EnableUserToken := false }
    OpenId := { ProviderUrl := "https://idp.example.org", ClientId := "rdpgw", ClientSecret := "s" }
    Caps :=
      { IdleTimeout := 10, TokenAuth := true, SmartCardAuth := false, EnableClipboard := true,
        EnableDrive := false, EnablePrinter := true, EnablePort := false, EnablePnp := true,
        DisableRedirect := false, RedirectAll := false }
    Client :=
      { NetworkAutoDetect := 0, UsernameTemplate := "", BandwidthAutoDetect := 1,
        ConnectionType := 6, SplitUserDomain := false, DefaultDomain := "" } }

/-- The sample configuration serving HTTPS from the given certificate files. -/
def httpsConf (certFile keyFile : String) : config.Configuration :=
  { sampleConf with
    Server := { sampleConf.Server with ServeHTTPS := true, CertFile := certFile, KeyFile := keyFile } }

/-- A certificate with a one-element chain. -/
def sampleCert : tls.Certificate := { chain := [[48, 130, 1, 10]] }

/-- A world in which every outside call succeeds: the loader returns `c` whatever
the file, discovery finds a provider, `SSLKEYLOGFILE` is unset. -/
def sampleWorld (args : List String) (c : config.Configuration) : World :=
  { Args := args
    Load := fun _ => c
    NewProvider := fun url => .ok { issuer := url, endpoint := ⟨url ++ "/auth", url ++ "/token"⟩ }
    Getenv := fun _ => ""
    OpenFile := fun name => .ok { name := name }
    LoadX509KeyPair := fun _ _ => .ok sampleCert
    ListenAndServeTLS := fun _ => none
    ListenAndServe := fun _ => some { text := "bind: address already in use" } }

/-- The world in which the loaded configuration names other certificate files. -/
def World.withCertFiles (w : World) (certFile keyFile : String) : World :=
  { w with Load := fun f =>
      { w.Load f with
        Server := { (w.Load f).Server with CertFile := certFile, KeyFile := keyFile } } }

/-- The world in which the loaded configuration has another host allow-list. -/
def World.withHosts (w : World) (hosts : List String) : World :=
  { w with Load := fun f =>
      { w.Load f with Server := { (w.Load f).Server with Hosts := hosts } } }

/-! ## The token codec (design document, 3 and 4.2) -/

namespace security

/-- Modelled from the spec: the content of a PAA token, "carrying at minimum an
expiry timestamp and (optionally) the client IP the token was issued for", and the
optional host constraint of 4.3.  Package `security` is not in `main.go`. -/
structure Claims where
  expiry : Nat
  clientIP : Option String
  host : Option String
  deriving DecidableEq, Repr

/-- Modelled from the spec: the four ways `Verify` fails (4.2). -/
inductive TokenError where
  | InvalidSignature
  | DecryptionFailed
  | Expired
  | IPMismatch
  deriving DecidableEq, Repr

/-- Modelled from the spec: the `context` argument of `Verify`, the clock reading
and the IP of the presenting client. -/
structure Context where
  now : Nat
  clientIP : String
  deriving DecidableEq, Repr

/-- Modelled from the spec: the serialisation and the two keyed primitives the
codec is built from, taken as parameters; each keyed operation gets the key first.
`unsign` gives back the signed message when the signature verifies, `decrypt` the
plaintext when decryption succeeds. -/
structure Codec where
  serialize : Claims → Bytes
  parse : Bytes → Option Claims
  sign : Bytes → Bytes → Bytes
  unsign : Bytes → Bytes → Option Bytes
  encrypt : Bytes → Bytes → Bytes
  decrypt : Bytes → Bytes → Option Bytes

/-- Modelled from the spec: each primitive of the codec is undone by its reverse
under the same key. -/
structure Codec.Sound (c : Codec) : Prop where
  parse_serialize : ∀ x, c.parse (c.serialize x) = some x
  unsign_sign : ∀ k m, c.unsign k (c.sign k m) = some m
  decrypt_encrypt : ∀ k m, c.decrypt k (c.encrypt k m) = some m

/-- Modelled from the spec: `Generate(claims) -> token` of 4.2, the body of
`security.GeneratePAAToken`, which is not in `main.go`: "serializes claims, signs,
then encrypts"; "uses the process-wide keys". -/
def GeneratePAAToken (c : Codec) (g : Globals) (claims : Claims) : Bytes :=
  c.encrypt g.EncryptionKey (c.sign g.SigningKey (c.serialize claims))

/-- Modelled from the spec: the checks of 3 on verified claims, in the order the
spec lists them: "current time < expiry, and (if IP-binding is enabled) the
presenting client's IP equals the bound IP". -/
def checkClaims (g : Globals) (claims : Claims) (ctx : Context) : Except TokenError Claims :=
  if ctx.now < claims.expiry then
    match claims.clientIP with
    | none => .ok claims
    | some ip => if g.VerifyClientIP && ip != ctx.clientIP then .error .IPMismatch else .ok claims
  else .error .Expired

/-- Modelled from the spec: `Verify(token, context) -> claims | error` of 4.2, the
body of `security.VerifyPAAToken`, which is not in `main.go`: it "reverses the
operation" of `Generate`.  A signed body that is no serialisation of claims is
reported as `InvalidSignature`, the spec naming no further error. -/
def VerifyPAAToken (c : Codec) (g : Globals) (token : Bytes) (ctx : Context) :
    Except TokenError Claims :=
  match c.decrypt g.EncryptionKey token with
  | none => .error .DecryptionFailed
  | some signed =>
    match c.unsign g.SigningKey signed with
    | none => .error .InvalidSignature
    | some body =>
      match c.parse body with
      | none => .error .InvalidSignature
      | some claims => checkClaims g claims ctx

/-- Modelled from the spec: the one way `Authorize` fails (4.3). -/
inductive AuthError where
  | HostNotAllowed
  deriving DecidableEq, Repr

/-- Modelled from the spec: the Host Authorizer of 4.3,
`Authorize(requestedHost, verifiedClaims)`, run on the static allow-list it is
given: "the requested host must appear in the static allow-list" (here by exact
match), the authorizer "may also consult claims (e.g., a host constraint embedded in
the token) - the conjunction of both checks must pass".  It answers the permitted
host. -/
def Authorize (allowList : List String) (requestedHost : String) (claims : Claims) :
    Except AuthError String :=
  let constraint := match claims.host with
    | none => true
    | some h => h == requestedHost
  if allowList.contains requestedHost && constraint then .ok requestedHost
  else .error .HostNotAllowed

/-- Modelled from the spec: a host check of package `security`, such as the
`security.VerifyServerFunc` that `main` installs and whose body is not in `main.go`
(spec 6: `VerifyServerFunc(requestedHost) -> bool`).  Such a check works from the
variables of its package, the configuration of the gateway that calls it, the
context of the request, the verified claims and the requested host. -/
abbrev HostCheck :=
  Globals → protocol.ServerConf → Context → Claims → String → Except AuthError String

end security

/-! ## The capability flags of a tunnel (design document, 4.4) -/

namespace protocol

/-- Modelled from the spec: the five capability flags in effect for a tunnel. -/
structure Capabilities where
  Clipboard : Bool
  Drive : Bool
  Printer : Bool
  Port : Bool
  Pnp : Bool
  deriving DecidableEq, Repr

/-- All five capabilities switched to the same value. -/
def Capabilities.all (b : Bool) : Capabilities :=
  { Clipboard := b, Drive := b, Printer := b, Port := b, Pnp := b }

/-- Modelled from the spec: the flags of a tunnel, computed by package `protocol`,
which is not in `main.go`: "`DisableAll` forces all off, `EnableAll` forces all on,
otherwise each flag is independently configured", read as a list of cases in the
order of the sentence. -/
def capabilities (f : RedirectFlags) : Capabilities :=
  if f.DisableAll then Capabilities.all false
  else if f.EnableAll then Capabilities.all true
  else { Clipboard := f.Clipboard, Drive := f.Drive, Printer := f.Printer, Port := f.Port,
         Pnp := f.Pnp }

/-! ## The PDU framer (design document, 3 and 4.1) -/

/-- Modelled from the spec: "a framed message with a numeric `type`, a byte
`length`, and a `payload`". -/
structure PDU where
  type : Nat
  length : Nat
  payload : Bytes
  deriving DecidableEq, Repr

/-- Modelled from the spec: the failure of the framer. -/
inductive FramingError where
  | framing
  deriving DecidableEq, Repr

/-- Modelled from the spec: the "fixed-size header (type + length)".  The spec
fixes neither width, so both are parameters, in bytes. -/
structure Layout where
  typeBytes : Nat
  lengthBytes : Nat
  deriving DecidableEq, Repr

/-- The size of the header in bytes. -/
def Layout.headerSize (l : Layout) : Nat := l.typeBytes + l.lengthBytes

/-- The number `n` in `width` bytes, least significant byte first. -/
def putUint : Nat → Nat → Bytes
  | 0, _ => []
  | width + 1, n => n % 256 :: putUint width (n / 256)

/-- The number a byte string holds, least significant byte first. -/
def getUint : Bytes → Nat
  | [] => 0
  | b :: bs => b + 256 * getUint bs

/-- Modelled from the spec: a well-formed PDU: "`length` exactly matches the
serialized payload size". -/
def PDU.wellFormed (p : PDU) : Prop := p.length = p.payload.length

instance (p : PDU) : Decidable p.wellFormed := by
  unfold PDU.wellFormed; infer_instance

/-- The type and the length of the PDU fit their header fields. -/
def PDU.fits (l : Layout) (p : PDU) : Prop :=
  p.type < 256 ^ l.typeBytes ∧ p.length < 256 ^ l.lengthBytes

instance (l : Layout) (p : PDU) : Decidable (p.fits l) := by
  unfold PDU.fits; infer_instance

/-- Modelled from the spec: the PDUs that have a serialised form: the well-formed
ones ("a mismatch is a protocol violation") whose type and length fit the header. -/
def PDU.representable (l : Layout) (p : PDU) : Prop := p.wellFormed ∧ p.fits l

instance (l : Layout) (p : PDU) : Decidable (p.representable l) := by
  unfold PDU.representable; infer_instance

/-- Modelled from the spec: serialisation, which "never emits a payload whose
length disagrees with the header": the header carries the size of the payload that
follows it. -/
def encode (l : Layout) (p : PDU) : Except FramingError Bytes :=
  if p.representable l then
    .ok (putUint l.typeBytes p.type ++ putUint l.lengthBytes p.payload.length ++ p.payload)
  else .error .framing

/-- Modelled from the spec: the framer: "read a fixed-size header (type + length),
then exactly `length` payload bytes; fails with `FramingError` if the stream ends
mid-header/mid-payload or `length` exceeds a configured maximum".  It answers the
PDU and the rest of the stream. -/
def decode (l : Layout) (maxLength : Nat) (s : Bytes) : Except FramingError (PDU × Bytes) :=
  if s.length < l.headerSize then .error .framing
  else
    let type := getUint (s.take l.typeBytes)
    let length := getUint ((s.drop l.typeBytes).take l.lengthBytes)
    let body := s.drop l.headerSize
    if maxLength < length then .error .framing
    else if body.length < length then .error .framing
    else .ok ({ type := type, length := length, payload := body.take length }, body.drop length)

/-- The length field of a serialised PDU. -/
def headerLength (l : Layout) (s : Bytes) : Nat :=
  getUint ((s.drop l.typeBytes).take l.lengthBytes)

end protocol

/-! ## Sample inputs for the modelled operations -/

namespace security

/-- An optional string as numbers: `0` for none, else the length plus one and the
code points. -/
def sampleOpt : Option String → Bytes
  | none => [0]
  | some s => (s.data.length + 1) :: s.data.map Char.toNat

/-- The reverse of `sampleOpt`, with the rest of the input. -/
def sampleOptBack : Bytes → Option (Option String × Bytes)
  | [] => none
  | 0 :: rest => some (none, rest)
  | (n + 1) :: rest =>
    if rest.length < n then none
    else some (some (String.mk ((rest.take n).map Char.ofNat)), rest.drop n)

/-- A codec without any secrecy, to run the token operations on: the signature is
the key itself, encryption adds the sum of the key to every number. -/
def sampleCodec : Codec :=
  { serialize := fun c => c.expiry :: (sampleOpt c.clientIP ++ sampleOpt c.host)
    parse := fun b =>
      match b with
      | [] => none
      | e :: rest =>
        match sampleOptBack rest with
        | none => none
        | some (ip, rest₁) =>
          match sampleOptBack rest₁ with
          | some (h, []) => some { expiry := e, clientIP := ip, host := h }
          | _ => none
    sign := fun k m => k.length :: (k ++ m)
    unsign := fun k signed =>
      match signed with
      | [] => none
      | n :: rest => if n = k.length ∧ rest.take n = k then some (rest.drop n) else none
    encrypt := fun k m => m.map (fun x => x + k.sum)
    decrypt := fun k m => some (m.map (fun x => x - k.sum)) }

/-- Claims that expire at time 100 and are bound to the client `10.0.0.1`. -/
def sampleClaims : Claims :=
  { expiry := 100, clientIP := some "10.0.0.1", host := some "rdp-host-1" }

end security

/-- A PDU of type 5 with three payload bytes. -/
def protocol.samplePDU : protocol.PDU := { type := 5, length := 3, payload := [1, 2, 3] }

/-- A header of two type bytes and four length bytes. -/
def protocol.sampleLayout : protocol.Layout := { typeBytes := 2, lengthBytes := 4 }

/-! ## Lemmas on the run of `main` -/

theorem isInit_of_noEarly {e : Event} (h : e.isEarly = false) : e.isInit = false := by
  unfold Event.isEarly at h
  split at h
  · exact Bool.noConfusion h
  · exact Bool.noConfusion h
  · exact Bool.noConfusion h
  · exact h

theorem serve_noEarly (w : World) (c : config.Configuration) (cfg : tls.Config)
    (a : api.Config) : ∀ e ∈ serve w c cfg a, e.isEarly = false := by
  intro e he
  unfold serve at he
  simp only [routes, List.mem_append, List.mem_cons, List.mem_singleton] at he
  rcases he with he | he
  · rcases he with rfl | rfl | rfl | rfl | rfl | he
    · rfl
    · rfl
    · rfl
    · rfl
    · rfl
    · simp at he
  · split at he
    · simp only [List.mem_cons] at he
      rcases he with rfl | he
      · rfl
      · split at he
        · simp only [List.mem_singleton] at he
          subst he; rfl
        · simp only [listenCheck, List.mem_cons, List.mem_singleton] at he
          rcases he with rfl | he
          · rfl
          · simp at he
    · simp only [List.mem_cons] at he
      rcases he with rfl | he
      · rfl
      · unfold listenCheck at he
        split at he
        · simp only [List.mem_singleton] at he
          subst he; rfl
        · simp at he

theorem keyLog_noEarly (w : World) (c : config.Configuration) (a : api.Config) :
    ∀ e ∈ keyLog w c a, e.isEarly = false := by
  intro e he
  unfold keyLog at he
  simp only [List.mem_cons] at he
  rcases he with rfl | rfl | he
  · rfl
  · rfl
  · split at he
    · simp only [List.mem_cons] at he
      rcases he with rfl | he
      · rfl
      · split at he
        · simp only [List.mem_singleton] at he
          subst he; rfl
        · simp only [List.mem_cons] at he
          rcases he with rfl | he
          · rfl
          · exact serve_noEarly _ _ _ _ e he
    · exact serve_noEarly _ _ _ _ e he

theorem oidcSetup_noInit (w : World) (c : config.Configuration) :
    ∀ e ∈ oidcSetup w c, e.isInit = false := by
  intro e he
  unfold oidcSetup at he
  simp only [List.mem_cons] at he
  rcases he with rfl | he
  · rfl
  · split at he
    · simp only [List.mem_singleton] at he
      subst he; rfl
    · simp only [List.mem_cons] at he
      rcases he with rfl | rfl | rfl | he
      · rfl
      · rfl
      · rfl
      · split at he
        · simp only [List.mem_singleton] at he
          subst he; rfl
        · exact isInit_of_noEarly (keyLog_noEarly _ _ _ e he)

theorem isKeyAssign_of_noInit {e : Event} (h : e.isInit = false) :
    e.isKeyAssign = false := by
  cases e <;> first | rfl | simp [Event.isInit, Event.isKeyAssign] at h

/-- Events that are no security setup leave the keys and `VerifyClientIP` alone. -/
theorem step_noInit (g : security.Globals) (e : Event) (h : e.isInit = false) :
    (g.step e).VerifyClientIP = g.VerifyClientIP ∧ (g.step e).SigningKey = g.SigningKey ∧
    (g.step e).EncryptionKey = g.EncryptionKey ∧
    (g.step e).UserEncryptionKey = g.UserEncryptionKey ∧
    (g.step e).UserSigningKey = g.UserSigningKey := by
  cases e <;>
    first
    | exact ⟨rfl, rfl, rfl, rfl, rfl⟩
    | simp [Event.isInit, Event.isKeyAssign] at h

theorem foldl_noInit (t : List Event) (g : security.Globals)
    (h : ∀ e ∈ t, e.isInit = false) :
    (t.foldl security.Globals.step g).VerifyClientIP = g.VerifyClientIP ∧
    (t.foldl security.Globals.step g).SigningKey = g.SigningKey ∧
    (t.foldl security.Globals.step g).EncryptionKey = g.EncryptionKey ∧
    (t.foldl security.Globals.step g).UserEncryptionKey = g.UserEncryptionKey ∧
    (t.foldl security.Globals.step g).UserSigningKey = g.UserSigningKey := by
  induction t generalizing g with
  | nil => exact ⟨rfl, rfl, rfl, rfl, rfl⟩
  | cons e t ih =>
    have he := step_noInit g e (h e (List.mem_cons_self e t))
    have ht := ih (g.step e) (fun x hx => h x (List.mem_cons_of_mem e hx))
    simp only [List.foldl_cons]
    obtain ⟨h1, h2, h3, h4, h5⟩ := he
    obtain ⟨t1, t2, t3, t4, t5⟩ := ht
    exact ⟨t1.trans h1, t2.trans h2, t3.trans h3, t4.trans h4, t5.trans h5⟩

/-- The keys and `VerifyClientIP` at the end of any run of `main`. -/
theorem after_main (w : World) :
    (security.Globals.after (main w)).VerifyClientIP = (conf w).Security.VerifyClientIp ∧
    (security.Globals.after (main w)).SigningKey = bytesOf (conf w).Security.PAATokenSigningKey ∧
    (security.Globals.after (main w)).EncryptionKey =
      bytesOf (conf w).Security.PAATokenEncryptionKey ∧
    (security.Globals.after (main w)).UserEncryptionKey =
      bytesOf (conf w).Security.UserTokenEncryptionKey ∧
    (security.Globals.after (main w)).UserSigningKey =
      bytesOf (conf w).Security.UserTokenSigningKey := by
  unfold security.Globals.after main
  rw [List.foldl_append]
  have h := foldl_noInit (oidcSetup w (conf w))
    ((keySetup w).foldl security.Globals.step security.Globals.zero) (oidcSetup_noInit w (conf w))
  obtain ⟨h1, h2, h3, h4, h5⟩ := h
  rw [h1, h2, h3, h4, h5]
  exact ⟨rfl, rfl, rfl, rfl, rfl⟩

theorem countP_oidcSetup (w : World) (c : config.Configuration) (p : Event → Bool)
    (hp : ∀ e, p e = true → e.isKeyAssign = true) : (oidcSetup w c).countP p = 0 := by
  rw [List.countP_eq_zero]
  intro e he hpe
  have h1 := isKeyAssign_of_noInit (oidcSetup_noInit w c e he)
  rw [hp e hpe] at h1
  exact Bool.noConfusion h1

theorem dropWhile_append_of_all {α : Type} (p : α → Bool) (l₁ l₂ : List α)
    (h : ∀ x ∈ l₁, p x = true) : (l₁ ++ l₂).dropWhile p = l₂.dropWhile p := by
  induction l₁ with
  | nil => rfl
  | cons x l ih =>
    have hx := h x (List.mem_cons_self x l)
    simp only [List.cons_append, List.dropWhile_cons, hx, if_true]
    exact ih (fun y hy => h y (List.mem_cons_of_mem x hy))

/-- What `keysBeforeServing` says: no key is assigned after a route registration
or a listener start. -/
theorem keysBeforeServing_spec (t : List Event) (h : keysBeforeServing t = true)
    (l₁ : List Event) (a : Event) (l₂ : List Event) (ht : t = l₁ ++ a :: l₂)
    (ha : a.isServing = true) : ∀ x ∈ l₂, x.isKeyAssign = false := by
  induction t generalizing l₁ with
  | nil => simp at ht
  | cons b t ih =>
    unfold keysBeforeServing at h
    cases l₁ with
    | nil =>
      simp only [List.nil_append, List.cons.injEq] at ht
      obtain ⟨hb, hl⟩ := ht
      subst hb hl
      simp only [List.dropWhile_cons, ha, Bool.not_true, Bool.false_eq_true, if_false,
        List.all_cons, Bool.and_eq_true, List.all_eq_true, Bool.not_eq_true'] at h
      exact h.2
    | cons c l =>
      simp only [List.cons_append, List.cons.injEq] at ht
      obtain ⟨_, hl⟩ := ht
      apply ih _ l hl
      unfold keysBeforeServing
      rw [List.all_eq_true]
      intro x hx
      have hx' : x ∈ t := (List.dropWhile_sublist _).subset hx
      by_cases hb : b.isServing = true
      · simp only [List.dropWhile_cons, hb, Bool.not_true, Bool.false_eq_true, if_false,
          List.all_cons, Bool.and_eq_true, List.all_eq_true] at h
        exact h.2 x hx'
      · simp only [List.dropWhile_cons, hb, Bool.not_false, if_true, List.all_eq_true] at h
        exact h x hx

theorem keysBeforeServing_main (w : World) : keysBeforeServing (main w) = true := by
  unfold keysBeforeServing main
  rw [dropWhile_append_of_all _ _ _ (by
    intro x hx
    simp only [keySetup, List.mem_cons, List.mem_singleton] at hx
    rcases hx with rfl | rfl | rfl | rfl | rfl | rfl | rfl | hx
    all_goals first | rfl | simp at hx)]
  rw [List.all_eq_true]
  intro e he
  have hmem : e ∈ oidcSetup w (conf w) := (List.dropWhile_sublist _).subset he
  simp [isKeyAssign_of_noInit (oidcSetup_noInit w (conf w) e hmem)]

theorem loadedFiles_noInit (t : List Event) (h : ∀ e ∈ t, e.isInit = false) :
    loadedFiles t = [] := by
  unfold loadedFiles
  rw [List.filterMap_eq_nil_iff]
  intro e he
  have := h e he
  cases e <;> first | rfl | simp [Event.isInit] at this

/-- Whatever the command line, `main` loads exactly one file, `rdpgw.yaml`. -/
theorem loadedFiles_main (w : World) : loadedFiles (main w) = ["rdpgw.yaml"] := by
  have h := loadedFiles_noInit (oidcSetup w (conf w)) (oidcSetup_noInit w (conf w))
  unfold loadedFiles at h ⊢
  unfold main
  rw [List.filterMap_append, h]
  rfl

theorem registered_serve (w : World) (c : config.Configuration) (cfg : tls.Config)
    (a : api.Config) :
    registered (serve w c cfg a) = routeTable { ServerConf := handlerConfig c } a := by
  unfold serve registered
  simp only [List.filterMap_append]
  have hroutes : List.filterMap (fun e => match e with
      | Event.httpHandle p h => some (p, h)
      | _ => none) (routes { ServerConf := handlerConfig c } a) =
      routeTable { ServerConf := handlerConfig c } a := rfl
  rw [hroutes]
  split
  · split <;> simp [listenCheck]
  · unfold listenCheck
    split <;> simp

theorem registered_keyLog (w : World) (c : config.Configuration) (a : api.Config) :
    registered (keyLog w c a) = [] ∨
    registered (keyLog w c a) = routeTable { ServerConf := handlerConfig c } a := by
  unfold keyLog
  dsimp only
  split
  · split
    · left; rfl
    · right
      exact registered_serve w c _ a
  · right
    exact registered_serve w c _ a

theorem registered_oidcSetup (w : World) (c : config.Configuration) :
    registered (oidcSetup w c) = [] ∨
    ∃ p, w.NewProvider c.OpenId.ProviderUrl = .ok p ∧
      registered (oidcSetup w c) =
        routeTable { ServerConf := handlerConfig c } (apiConfig c p) := by
  unfold oidcSetup
  split
  · left; rfl
  · rename_i p hp
    split
    · left; rfl
    · rcases registered_keyLog w c (apiConfig c p) with h | h
      · left; exact h
      · right; exact ⟨p, hp, h⟩

/-- The routes of a run of `main`: none when it ended early, the table otherwise. -/
theorem registered_main (w : World) :
    registered (main w) = [] ∨
    ∃ p, w.NewProvider (conf w).OpenId.ProviderUrl = .ok p ∧
      registered (main w) =
        routeTable { ServerConf := handlerConfig (conf w) } (apiConfig (conf w) p) := by
  have hmain : registered (main w) = registered (oidcSetup w (conf w)) := by
    unfold main registered
    rw [List.filterMap_append]
    rfl
  rw [hmain]
  exact registered_oidcSetup w (conf w)

theorem mem_registered {t : List Event} {p : String} {h : http.Handler}
    (hm : Event.httpHandle p h ∈ t) : (p, h) ∈ registered t := by
  unfold registered
  rw [List.mem_filterMap]
  exact ⟨_, hm, rfl⟩

theorem serve_ne_nil (w : World) (c : config.Configuration) (cfg : tls.Config)
    (a : api.Config) : serve w c cfg a ≠ [] := by
  unfold serve
  simp [routes]

/-- The HTTPS branch of `serve` when the certificate loads. -/
theorem serve_https (w : World) (c : config.Configuration) (cfg : tls.Config) (a : api.Config)
    (cert : tls.Certificate) (hs : c.Server.ServeHTTPS = true)
    (hok : w.LoadX509KeyPair c.Server.CertFile c.Server.KeyFile = .ok cert) :
    serve w c cfg a = routes { ServerConf := handlerConfig c } a ++
      [ .LoadX509KeyPair c.Server.CertFile c.Server.KeyFile,
        .ListenAndServeTLS
          { Addr := ":" ++ strconv.Itoa c.Server.Port
            TLSConfig := some { cfg with Certificates := cfg.Certificates ++ [cert] }
            TLSNextProto := some [] } "" "" ] := by
  unfold serve
  simp only [hs, hok, if_true, listenCheck]

/-- A run of the key-log stage either ends before line 124 or continues with
`serve` on a TLS configuration without certificates. -/
theorem keyLog_cases (w : World) (c : config.Configuration) (a : api.Config) :
    (∀ e ∈ keyLog w c a, e.isLate = false) ∨
    ∃ pre k, keyLog w c a = pre ++ serve w c { Certificates := [], KeyLogWriter := k } a ∧
      ∀ e ∈ pre, e.isLate = false := by
  unfold keyLog
  dsimp only
  split
  · split
    · left
      intro e he
      simp only [List.mem_cons, List.mem_singleton] at he
      rcases he with rfl | rfl | rfl | rfl | he
      · rfl
      · rfl
      · rfl
      · rfl
      · simp at he
    · rename_i f _
      right
      refine ⟨[.logPrintf "Starting remote desktop gateway server" [],
        .osGetenv "SSLKEYLOGFILE", .osOpenFile (w.Getenv "SSLKEYLOGFILE"),
        .logPrintf "Key log file set to: %s" [.str (w.Getenv "SSLKEYLOGFILE")]], some f, rfl, ?_⟩
      intro e he
      simp only [List.mem_cons, List.mem_singleton] at he
      rcases he with rfl | rfl | rfl | rfl | he
      · rfl
      · rfl
      · rfl
      · rfl
      · simp at he
  · right
    refine ⟨[.logPrintf "Starting remote desktop gateway server" [],
      .osGetenv "SSLKEYLOGFILE"], none, rfl, ?_⟩
    intro e he
    simp only [List.mem_cons, List.mem_singleton] at he
    rcases he with rfl | rfl | he
    · rfl
    · rfl
    · simp at he

/-- A run of `main` either ends before line 124 or continues with `serve` on a TLS
configuration without certificates. -/
theorem main_cases (w : World) :
    (∀ e ∈ main w, e.isLate = false) ∨
    ∃ pre k p, main w =
        pre ++ serve w (conf w) { Certificates := [], KeyLogWriter := k } (apiConfig (conf w) p) ∧
      ∀ e ∈ pre, e.isLate = false := by
  have hkeys : ∀ e ∈ keySetup w, e.isLate = false := by
    intro e he
    simp only [keySetup, List.mem_cons, List.mem_singleton] at he
    rcases he with rfl | rfl | rfl | rfl | rfl | rfl | rfl | he
    all_goals first | rfl | simp at he
  unfold main oidcSetup
  split
  · left
    intro e he
    rw [List.mem_append] at he
    rcases he with he | he
    · exact hkeys e he
    · simp only [List.mem_cons, List.mem_singleton] at he
      rcases he with rfl | rfl | he
      · rfl
      · rfl
      · simp at he
  · rename_i p _
    split
    · left
      intro e he
      rw [List.mem_append] at he
      rcases he with he | he
      · exact hkeys e he
      · simp only [List.mem_cons, List.mem_singleton] at he
        rcases he with rfl | rfl | rfl | rfl | rfl | he
        all_goals first | rfl | simp at he
    · have hfront : ∀ e ∈ keySetup w ++ [Event.oidcNewProvider (conf w).OpenId.ProviderUrl,
          Event.setOIDCProvider p, Event.setOauth2Config (oauthConfig (conf w) p),
          Event.NewApi (apiConfig (conf w) p)], e.isLate = false := by
        intro e he
        rw [List.mem_append] at he
        rcases he with he | he
        · exact hkeys e he
        · simp only [List.mem_cons, List.mem_singleton] at he
          rcases he with rfl | rfl | rfl | rfl | he
          all_goals first | rfl | simp at he
      rcases keyLog_cases w (conf w) (apiConfig (conf w) p) with hk | ⟨pre, k, hk, hpre⟩
      · left
        intro e he
        rw [List.mem_append] at he
        rcases he with he | he
        · exact hkeys e he
        · simp only [List.mem_cons] at he
          rcases he with rfl | rfl | rfl | rfl | he
          · rfl
          · rfl
          · rfl
          · rfl
          · exact hk e he
      · right
        refine ⟨(keySetup w ++ [Event.oidcNewProvider (conf w).OpenId.ProviderUrl,
          Event.setOIDCProvider p, Event.setOauth2Config (oauthConfig (conf w) p),
          Event.NewApi (apiConfig (conf w) p)]) ++ pre, k, p, ?_, ?_⟩
        · dsimp only
          rw [hk]
          simp
        · intro e he
          rw [List.mem_append] at he
          rcases he with he | he
          · exact hfront e he
          · exact hpre e he


/-- The run of `main` after a successful discovery when the certificate file check
fails: it ends in the fatal error of line 85. -/
theorem main_certKey_abort (w : World) (p : oidc.Provider)
    (h : w.NewProvider (conf w).OpenId.ProviderUrl = .ok p)
    (hc : ((conf w).Server.ServeHTTPS &&
      ((conf w).Server.CertFile == "" || (conf w).Server.KeyFile == "")) = true) :
    main w = keySetup w ++
      [ .oidcNewProvider (conf w).OpenId.ProviderUrl, .setOIDCProvider p,
        .setOauth2Config (oauthConfig (conf w) p), .NewApi (apiConfig (conf w) p),
        .logFatal [.str "Both certfile and keyfile need to be specified"] ] := by
  unfold main oidcSetup
  simp only [h, hc, if_true]

/-- The run of `main` after a successful discovery when the certificate file check
passes: it goes on with the key-log stage. -/
theorem main_certKey_pass (w : World) (p : oidc.Provider)
    (h : w.NewProvider (conf w).OpenId.ProviderUrl = .ok p)
    (hc : ((conf w).Server.ServeHTTPS &&
      ((conf w).Server.CertFile == "" || (conf w).Server.KeyFile == "")) = false) :
    main w = keySetup w ++
      ([ .oidcNewProvider (conf w).OpenId.ProviderUrl, .setOIDCProvider p,
        .setOauth2Config (oauthConfig (conf w) p), .NewApi (apiConfig (conf w) p) ] ++
        keyLog w (conf w) (apiConfig (conf w) p)) := by
  unfold main oidcSetup
  simp only [h, hc]
  rfl

/-- With `ServeHTTPS` false the run does not depend on `CertFile` and `KeyFile`. -/
theorem main_withCertFiles (w : World) (certFile keyFile : String)
    (hs : (conf w).Server.ServeHTTPS = false) :
    main (w.withCertFiles certFile keyFile) = main w := by
  have hs' : (w.Load "rdpgw.yaml").Server.ServeHTTPS = false := hs
  simp [main, oidcSetup, keyLog, serve, conf, configFile, World.withCertFiles, hs',
    handlerConfig, apiConfig, oauthConfig, keySetup, pflag.StringVarP]

theorem certKey_check_iff (c : config.Configuration) :
    (c.Server.ServeHTTPS && (c.Server.CertFile == "" || c.Server.KeyFile == "")) = true ↔
    (c.Server.ServeHTTPS = true ∧ (c.Server.CertFile = "" ∨ c.Server.KeyFile = "")) := by
  simp


/-! ## Lemmas on the modelled operations -/

namespace security

/-- A token made by `GeneratePAAToken` passes the three reversing steps of
`VerifyPAAToken`; what is left are the checks on the claims. -/
theorem verify_generate (c : Codec) (hc : c.Sound) (g : Globals) (claims : Claims)
    (ctx : Context) :
    VerifyPAAToken c g (GeneratePAAToken c g claims) ctx = checkClaims g claims ctx := by
  unfold VerifyPAAToken GeneratePAAToken
  simp only [hc.decrypt_encrypt, hc.unsign_sign, hc.parse_serialize]

theorem sampleOptBack_sampleOpt (x : Option String) (rest : Bytes) :
    sampleOptBack (sampleOpt x ++ rest) = some (x, rest) := by
  cases x with
  | none => rfl
  | some s =>
    have hlen : ¬ (s.data.map Char.toNat ++ rest).length < s.data.length := by
      simp
    have htake : (s.data.map Char.toNat ++ rest).take s.data.length = s.data.map Char.toNat :=
      List.take_left' (by simp)
    have hdrop : (s.data.map Char.toNat ++ rest).drop s.data.length = rest :=
      List.drop_left' (by simp)
    have hback : (s.data.map Char.toNat).map Char.ofNat = s.data := by
      rw [List.map_map]
      conv_rhs => rw [← List.map_id s.data]
      apply List.map_congr_left
      intro a _
      exact Char.ofNat_toNat a
    simp only [sampleOpt, List.cons_append, sampleOptBack, hlen, if_false, htake, hdrop, hback]

theorem sampleCodec_sound : sampleCodec.Sound where
  parse_serialize := by
    intro x
    simp only [sampleCodec, List.append_assoc, sampleOptBack_sampleOpt]
    have h := sampleOptBack_sampleOpt x.host []
    rw [List.append_nil] at h
    simp only [h]
  unsign_sign := by
    intro k m
    have htake : (k ++ m).take k.length = k := List.take_left' rfl
    have hdrop : (k ++ m).drop k.length = m := List.drop_left' rfl
    simp only [sampleCodec, htake, hdrop, and_self, if_true]
  decrypt_encrypt := by
    intro k m
    simp only [sampleCodec, List.map_map]
    congr 1
    conv_rhs => rw [← List.map_id m]
    apply List.map_congr_left
    intro a _
    simp

end security

namespace protocol

theorem length_putUint (width n : Nat) : (putUint width n).length = width := by
  induction width generalizing n with
  | zero => rfl
  | succ k ih => simp [putUint, ih]

theorem getUint_putUint (width n : Nat) (h : n < 256 ^ width) :
    getUint (putUint width n) = n := by
  induction width generalizing n with
  | zero =>
    simp only [pow_zero, Nat.lt_one_iff] at h
    subst h
    rfl
  | succ k ih =>
    have hdiv : n / 256 < 256 ^ k := by
      apply Nat.div_lt_of_lt_mul
      rw [pow_succ] at h
      omega
    simp only [putUint, getUint, ih (n / 256) hdiv]
    exact Nat.mod_add_div n 256

/-- The framer on a header of type `t` and length `body.length`, followed by `body`
and by `rest`. -/
theorem decode_frame (l : Layout) (maxLength t : Nat) (body rest : Bytes)
    (ht : t < 256 ^ l.typeBytes) (hl : body.length < 256 ^ l.lengthBytes)
    (hmax : body.length ≤ maxLength) :
    decode l maxLength
      (putUint l.typeBytes t ++ putUint l.lengthBytes body.length ++ body ++ rest) =
    .ok ({ type := t, length := body.length, payload := body }, rest) := by
  have hs : putUint l.typeBytes t ++ putUint l.lengthBytes body.length ++ body ++ rest =
      putUint l.typeBytes t ++ (putUint l.lengthBytes body.length ++ (body ++ rest)) := by
    simp only [List.append_assoc]
  rw [hs]
  have h1 : (putUint l.typeBytes t ++ (putUint l.lengthBytes body.length ++ (body ++ rest))).take
      l.typeBytes = putUint l.typeBytes t := List.take_left' (length_putUint _ _)
  have h2 : (putUint l.typeBytes t ++ (putUint l.lengthBytes body.length ++ (body ++ rest))).drop
      l.typeBytes = putUint l.lengthBytes body.length ++ (body ++ rest) :=
    List.drop_left' (length_putUint _ _)
  have h3 : (putUint l.lengthBytes body.length ++ (body ++ rest)).take l.lengthBytes =
      putUint l.lengthBytes body.length := List.take_left' (length_putUint _ _)
  have h4 : (putUint l.typeBytes t ++ (putUint l.lengthBytes body.length ++ (body ++ rest))).drop
      l.headerSize = body ++ rest := by
    unfold Layout.headerSize
    rw [← List.drop_drop, h2]
    exact List.drop_left' (length_putUint _ _)
  have h5 : ¬ (putUint l.typeBytes t ++
      (putUint l.lengthBytes body.length ++ (body ++ rest))).length < l.headerSize := by
    simp only [List.length_append, length_putUint, Layout.headerSize]
    omega
  have h6 : (body ++ rest).take body.length = body := List.take_left' rfl
  have h7 : (body ++ rest).drop body.length = rest := List.drop_left' rfl
  have h8 : ¬ (body ++ rest).length < body.length := by
    simp only [List.length_append]
    omega
  have h9 : ¬ maxLength < body.length := by omega
  unfold decode
  simp only [h5, if_false, h1, h2, h3, h4, getUint_putUint _ _ ht, getUint_putUint _ _ hl, h9,
    h8, h6, h7]

/-- The length field of a header written by `encode` is the size of the payload. -/
theorem headerLength_frame (l : Layout) (t : Nat) (body : Bytes)
    (hl : body.length < 256 ^ l.lengthBytes) :
    headerLength l (putUint l.typeBytes t ++ putUint l.lengthBytes body.length ++ body) =
      body.length := by
  unfold headerLength
  rw [List.append_assoc, List.drop_left' (length_putUint _ _),
    List.take_left' (length_putUint _ _), getUint_putUint _ _ hl]

theorem getUint_lt (bs : Bytes) (h : ∀ b ∈ bs, b < 256) : getUint bs < 256 ^ bs.length := by
  induction bs with
  | nil => simp [getUint]
  | cons b r ih =>
    have hb := h b (List.mem_cons_self b r)
    have hr := ih (fun x hx => h x (List.mem_cons_of_mem b hx))
    simp only [getUint, List.length_cons, pow_succ]
    omega

theorem putUint_getUint (bs : Bytes) (h : ∀ b ∈ bs, b < 256) :
    putUint bs.length (getUint bs) = bs := by
  induction bs with
  | nil => rfl
  | cons b r ih =>
    have hb := h b (List.mem_cons_self b r)
    have hr := ih (fun x hx => h x (List.mem_cons_of_mem b hx))
    have hmod : (b + 256 * getUint r) % 256 = b := by omega
    have hdiv : (b + 256 * getUint r) / 256 = getUint r := by omega
    simp only [getUint, List.length_cons, putUint, hmod, hdiv, hr]

/-- What the framer accepts is well-formed, and serialising it gives back the bytes
the framer consumed. -/
theorem decode_wellFormed (l : Layout) (maxLength : Nat) (s : Bytes) (p : PDU) (rest : Bytes)
    (hb : ∀ b ∈ s, b < 256) (h : decode l maxLength s = .ok (p, rest)) :
    (p.representable l ∧ p.length ≤ maxLength) ∧
    ∃ enc, encode l p = .ok enc ∧ s = enc ++ rest := by
  unfold decode at h
  split at h
  · exact Except.noConfusion h
  · rename_i hhead
    dsimp only at h
    split at h
    · exact Except.noConfusion h
    · rename_i hmax
      split at h
      · exact Except.noConfusion h
      · rename_i hbody
        simp only [Except.ok.injEq, Prod.mk.injEq] at h
        obtain ⟨hp, hrest⟩ := h
        unfold Layout.headerSize at hhead hbody hp hrest
        have h1len : (s.take l.typeBytes).length = l.typeBytes := by
          rw [List.length_take]; omega
        have h2len : ((s.drop l.typeBytes).take l.lengthBytes).length = l.lengthBytes := by
          rw [List.length_take, List.length_drop]; omega
        have h1b : ∀ b ∈ s.take l.typeBytes, b < 256 :=
          fun b hx => hb b (List.mem_of_mem_take hx)
        have h2b : ∀ b ∈ (s.drop l.typeBytes).take l.lengthBytes, b < 256 :=
          fun b hx => hb b (List.mem_of_mem_drop (List.mem_of_mem_take hx))
        have ht := getUint_lt _ h1b
        have hl := getUint_lt _ h2b
        rw [h1len] at ht
        rw [h2len] at hl
        have hpay : ((s.drop (l.typeBytes + l.lengthBytes)).take
            (getUint ((s.drop l.typeBytes).take l.lengthBytes))).length =
            getUint ((s.drop l.typeBytes).take l.lengthBytes) := by
          rw [List.length_take]; omega
        have hrep : p.representable l := by
          subst hp
          exact ⟨hpay.symm, ht, hl⟩
        refine ⟨⟨hrep, ?_⟩, ?_⟩
        · subst hp
          exact Nat.le_of_not_lt hmax
        · refine ⟨_, by unfold encode; rw [if_pos hrep], ?_⟩
          subst hp hrest
          have e1 := putUint_getUint _ h1b
          have e2 := putUint_getUint _ h2b
          rw [h1len] at e1
          rw [h2len] at e2
          simp only [hpay, e1, e2]
          rw [List.append_assoc, List.append_assoc, List.take_append_drop,
            ← List.drop_drop, List.take_append_drop, List.take_append_drop]

end protocol

/-- Events that are not early leave the variables of package `security` alone. -/
theorem step_noEarly (g : security.Globals) (e : Event) (h : e.isEarly = false) :
    g.step e = g := by
  cases e <;>
    first
    | rfl
    | simp [Event.isEarly, Event.isInit, Event.isKeyAssign] at h

theorem foldl_noEarly (t : List Event) (g : security.Globals)
    (h : ∀ e ∈ t, e.isEarly = false) : t.foldl security.Globals.step g = g := by
  induction t generalizing g with
  | nil => rfl
  | cons e t ih =>
    rw [List.foldl_cons, step_noEarly g e (h e (List.mem_cons_self e t))]
    exact ih g (fun x hx => h x (List.mem_cons_of_mem e hx))

/-- The variables of package `security` at the end of a run of `main`. -/
theorem after_main_eq (w : World) :
    security.Globals.after (main w) =
      match w.NewProvider (conf w).OpenId.ProviderUrl with
      | .ok p =>
        { VerifyClientIP := (conf w).Security.VerifyClientIp
          SigningKey := bytesOf (conf w).Security.PAATokenSigningKey
          EncryptionKey := bytesOf (conf w).Security.PAATokenEncryptionKey
          UserEncryptionKey := bytesOf (conf w).Security.UserTokenEncryptionKey
          UserSigningKey := bytesOf (conf w).Security.UserTokenSigningKey
          OIDCProvider := some p
          Oauth2Config := some (oauthConfig (conf w) p) }
      | .error _ =>
        { VerifyClientIP := (conf w).Security.VerifyClientIp
          SigningKey := bytesOf (conf w).Security.PAATokenSigningKey
          EncryptionKey := bytesOf (conf w).Security.PAATokenEncryptionKey
          UserEncryptionKey := bytesOf (conf w).Security.UserTokenEncryptionKey
          UserSigningKey := bytesOf (conf w).Security.UserTokenSigningKey
          OIDCProvider := none
          Oauth2Config := none } := by
  unfold security.Globals.after main oidcSetup
  rw [List.foldl_append]
  cases hnp : w.NewProvider (conf w).OpenId.ProviderUrl with
  | error err => rfl
  | ok p =>
    dsimp only
    split
    · rfl
    · simp only [List.foldl_cons]
      rw [foldl_noEarly _ _ (keyLog_noEarly w (conf w) (apiConfig (conf w) p))]
      rfl

/-- What `main` gives the gateway and package `security` does not depend on the
host allow-list of the configuration. -/
theorem withHosts_same_gateway (w : World) (hosts : List String) :
    handlerConfig (conf (w.withHosts hosts)) = handlerConfig (conf w) ∧
    security.Globals.after (main (w.withHosts hosts)) = security.Globals.after (main w) := by
  refine ⟨rfl, ?_⟩
  rw [after_main_eq, after_main_eq]
  rfl


/-! ## The process wiring -/

/-- C5: for every loaded configuration, at the end of any run of `main` each of the
four process-wide keys is the byte string of its own configuration field and of no
other (`SigningKey` of `PAATokenSigningKey`, `EncryptionKey` of
`PAATokenEncryptionKey`, `UserSigningKey` of `UserTokenSigningKey`,
`UserEncryptionKey` of `UserTokenEncryptionKey`), each key is assigned exactly once
in the run, and every key assignment comes before the first route registration
or listener start. -/
theorem C5_keys_set_once_from_own_field (w : World) :
    (security.Globals.after (main w)).SigningKey =
      bytesOf (conf w).Security.PAATokenSigningKey ∧
    (security.Globals.after (main w)).EncryptionKey =
      bytesOf (conf w).Security.PAATokenEncryptionKey ∧
    (security.Globals.after (main w)).UserSigningKey =
      bytesOf (conf w).Security.UserTokenSigningKey ∧
    (security.Globals.after (main w)).UserEncryptionKey =
      bytesOf (conf w).Security.UserTokenEncryptionKey ∧
    (main w).countP Event.isSetSigningKey = 1 ∧
    (main w).countP Event.isSetEncryptionKey = 1 ∧
    (main w).countP Event.isSetUserSigningKey = 1 ∧
    (main w).countP Event.isSetUserEncryptionKey = 1 ∧
    keysBeforeServing (main w) = true := by
  obtain ⟨_, h2, h3, h4, h5⟩ := after_main w
  refine ⟨h2, h3, h5, h4, ?_, ?_, ?_, ?_, keysBeforeServing_main w⟩
  · unfold main
    rw [List.countP_append, countP_oidcSetup w (conf w) _ (by
      intro e he; cases e <;> first | rfl | simp [Event.isSetSigningKey] at he)]
    rfl
  · unfold main
    rw [List.countP_append, countP_oidcSetup w (conf w) _ (by
      intro e he; cases e <;> first | rfl | simp [Event.isSetEncryptionKey] at he)]
    rfl
  · unfold main
    rw [List.countP_append, countP_oidcSetup w (conf w) _ (by
      intro e he; cases e <;> first | rfl | simp [Event.isSetUserSigningKey] at he)]
    rfl
  · unfold main
    rw [List.countP_append, countP_oidcSetup w (conf w) _ (by
      intro e he; cases e <;> first | rfl | simp [Event.isSetUserEncryptionKey] at he)]
    rfl

/-- C6: for every loaded configuration, the `ServerConf` of the gateway whose
handler `main` registers carries the configuration unchanged: `IdleTimeout`,
`TokenAuth` and `SmartCardAuth` are those of `conf.Caps`, `SendBuf` and
`ReceiveBuf` those of `conf.Server`, and the redirect flags `Clipboard`, `Drive`,
`Printer`, `Port`, `Pnp`, `DisableAll`, `EnableAll` are `EnableClipboard`,
`EnableDrive`, `EnablePrinter`, `EnablePort`, `EnablePnp`, `DisableRedirect`,
`RedirectAll` of `conf.Caps`, in this order. -/
theorem C6_serverConf_carries_configuration (w : World) (gw : protocol.Gateway)
    (h : Event.httpHandle "/remoteDesktopGateway/"
      (.EnrichContext (.HandlerFunc (.HandleGatewayProtocol gw))) ∈ main w) :
    gw.ServerConf.IdleTimeout = (conf w).Caps.IdleTimeout ∧
    gw.ServerConf.TokenAuth = (conf w).Caps.TokenAuth ∧
    gw.ServerConf.SmartCardAuth = (conf w).Caps.SmartCardAuth ∧
    gw.ServerConf.SendBuf = (conf w).Server.SendBuf ∧
    gw.ServerConf.ReceiveBuf = (conf w).Server.ReceiveBuf ∧
    gw.ServerConf.RedirectFlags.Clipboard = (conf w).Caps.EnableClipboard ∧
    gw.ServerConf.RedirectFlags.Drive = (conf w).Caps.EnableDrive ∧
    gw.ServerConf.RedirectFlags.Printer = (conf w).Caps.EnablePrinter ∧
    gw.ServerConf.RedirectFlags.Port = (conf w).Caps.EnablePort ∧
    gw.ServerConf.RedirectFlags.Pnp = (conf w).Caps.EnablePnp ∧
    gw.ServerConf.RedirectFlags.DisableAll = (conf w).Caps.DisableRedirect ∧
    gw.ServerConf.RedirectFlags.EnableAll = (conf w).Caps.RedirectAll := by
  have hm := mem_registered h
  have hgw : gw = { ServerConf := handlerConfig (conf w) } := by
    rcases registered_main w with h0 | ⟨p, _, h1⟩
    · rw [h0] at hm
      exact absurd hm (List.not_mem_nil _)
    · rw [h1] at hm
      simp [routeTable] at hm
      exact hm
  subst hgw
  exact ⟨rfl, rfl, rfl, rfl, rfl, rfl, rfl, rfl, rfl, rfl, rfl, rfl⟩

/-- Witness of C6 on the sample configuration served over plain HTTP. -/
theorem C6_serverConf_carries_configuration_witness :
    (10 : Int) = (conf (sampleWorld [] sampleConf)).Caps.IdleTimeout ∧
    true = (conf (sampleWorld [] sampleConf)).Caps.TokenAuth ∧
    false = (conf (sampleWorld [] sampleConf)).Caps.SmartCardAuth ∧
    (4096 : Int) = (conf (sampleWorld [] sampleConf)).Server.SendBuf ∧
    (8192 : Int) = (conf (sampleWorld [] sampleConf)).Server.ReceiveBuf ∧
    true = (conf (sampleWorld [] sampleConf)).Caps.EnableClipboard ∧
    false = (conf (sampleWorld [] sampleConf)).Caps.EnableDrive ∧
    true = (conf (sampleWorld [] sampleConf)).Caps.EnablePrinter ∧
    false = (conf (sampleWorld [] sampleConf)).Caps.EnablePort ∧
    true = (conf (sampleWorld [] sampleConf)).Caps.EnablePnp ∧
    false = (conf (sampleWorld [] sampleConf)).Caps.DisableRedirect ∧
    false = (conf (sampleWorld [] sampleConf)).Caps.RedirectAll :=
  C6_serverConf_carries_configuration (sampleWorld [] sampleConf)
    { ServerConf := handlerConfig sampleConf } (by decide)

/-- C7: run with the command line `--conf other.yaml`, which asks for the file
`other.yaml`, `main` loads `rdpgw.yaml`: the flag is registered and never parsed. -/
theorem C7_conf_flag_not_read :
    requestedConfigFile (sampleWorld ["--conf", "other.yaml"] sampleConf).Args = "other.yaml" ∧
    loadedFiles (main (sampleWorld ["--conf", "other.yaml"] sampleConf)) = ["rdpgw.yaml"] :=
  ⟨by decide, loadedFiles_main _⟩

/-- C8: whenever `main` registers routes, exactly one of them dispatches to the
gateway's protocol handler, the one for `/remoteDesktopGateway/`; its handler is
`common.EnrichContext` wrapped around `gw.HandleGatewayProtocol`, and no registered
handler leads to the protocol handler other than through `EnrichContext`. -/
theorem C8_one_gateway_route_behind_enrichContext (w : World)
    (h : registered (main w) ≠ []) :
    (registered (main w)).filter (fun r => r.2.dispatchesToGateway) =
      [("/remoteDesktopGateway/", .EnrichContext (.HandlerFunc
        (.HandleGatewayProtocol { ServerConf := handlerConfig (conf w) })))] ∧
    (registered (main w)).all (fun r => r.2.gatewayBehindEnrich) = true := by
  rcases registered_main w with h0 | ⟨p, _, h1⟩
  · exact absurd h0 h
  · rw [h1]
    exact ⟨rfl, rfl⟩

/-- Witness of C8 on the sample configuration served over plain HTTP. -/
theorem C8_one_gateway_route_behind_enrichContext_witness :
    registered (main (sampleWorld [] sampleConf)) ≠ [] ∧
    (registered (main (sampleWorld [] sampleConf))).filter (fun r => r.2.dispatchesToGateway) =
      [("/remoteDesktopGateway/", .EnrichContext (.HandlerFunc
        (.HandleGatewayProtocol
          { ServerConf := handlerConfig (conf (sampleWorld [] sampleConf)) })))] ∧
    (registered (main (sampleWorld [] sampleConf))).all (fun r => r.2.gatewayBehindEnrich) =
      true :=
  ⟨by decide, C8_one_gateway_route_behind_enrichContext (sampleWorld [] sampleConf) (by decide)⟩

/-- C9: given that OIDC provider discovery succeeded, `main` ends in the fatal error
"Both certfile and keyfile need to be specified" if and only if `ServeHTTPS` is true
and `CertFile` or `KeyFile` is the empty string; a run that ends this way has
registered no route and started no listener; and with `ServeHTTPS` false no run ends
this way, and the run is the same as with `CertFile` and `KeyFile` both empty. -/
theorem C9_certfile_keyfile_abort (w : World) (p : oidc.Provider)
    (h : w.NewProvider (conf w).OpenId.ProviderUrl = .ok p) :
    (abortsWith (main w) "Both certfile and keyfile need to be specified" ↔
      ((conf w).Server.ServeHTTPS = true ∧
        ((conf w).Server.CertFile = "" ∨ (conf w).Server.KeyFile = ""))) ∧
    (abortsWith (main w) "Both certfile and keyfile need to be specified" →
      (main w).any Event.isServing = false) ∧
    ((conf w).Server.ServeHTTPS = false →
      ¬ abortsWith (main w) "Both certfile and keyfile need to be specified" ∧
      main (w.withCertFiles "" "") = main w) := by
  have hiff : abortsWith (main w) "Both certfile and keyfile need to be specified" ↔
      ((conf w).Server.ServeHTTPS = true ∧
        ((conf w).Server.CertFile = "" ∨ (conf w).Server.KeyFile = "")) := by
    rw [← certKey_check_iff]
    constructor
    · intro hab
      by_contra hc
      have hc' := Bool.eq_false_iff.mpr hc
      have hmem := List.mem_of_getLast?_eq_some hab
      rw [main_certKey_pass w p h hc', List.mem_append, List.mem_append] at hmem
      rcases hmem with hm | hm | hm
      · simp [keySetup] at hm
      · simp at hm
      · have := keyLog_noEarly w (conf w) (apiConfig (conf w) p) _ hm
        exact Bool.noConfusion this
    · intro hc
      unfold abortsWith
      rw [main_certKey_abort w p h hc]
      rw [List.getLast?_append_of_ne_nil _ (by simp)]
      rfl
  refine ⟨hiff, ?_, ?_⟩
  · intro hab
    rw [main_certKey_abort w p h ((certKey_check_iff _).mpr (hiff.mp hab))]
    rw [List.any_append]
    rfl
  · intro hs
    refine ⟨?_, main_withCertFiles w "" "" hs⟩
    intro hab
    have := (hiff.mp hab).1
    rw [hs] at this
    exact Bool.noConfusion this

/-- Witness of C9: the sample configuration asked to serve HTTPS with no
certificate file. -/
theorem C9_certfile_keyfile_abort_witness :
    (abortsWith (main (sampleWorld [] (httpsConf "" "key.pem")))
        "Both certfile and keyfile need to be specified" ↔
      ((conf (sampleWorld [] (httpsConf "" "key.pem"))).Server.ServeHTTPS = true ∧
        ((conf (sampleWorld [] (httpsConf "" "key.pem"))).Server.CertFile = "" ∨
          (conf (sampleWorld [] (httpsConf "" "key.pem"))).Server.KeyFile = ""))) ∧
    (abortsWith (main (sampleWorld [] (httpsConf "" "key.pem")))
        "Both certfile and keyfile need to be specified" →
      (main (sampleWorld [] (httpsConf "" "key.pem"))).any Event.isServing = false) ∧
    ((conf (sampleWorld [] (httpsConf "" "key.pem"))).Server.ServeHTTPS = false →
      ¬ abortsWith (main (sampleWorld [] (httpsConf "" "key.pem")))
        "Both certfile and keyfile need to be specified" ∧
      main ((sampleWorld [] (httpsConf "" "key.pem")).withCertFiles "" "") =
        main (sampleWorld [] (httpsConf "" "key.pem"))) :=
  C9_certfile_keyfile_abort (sampleWorld [] (httpsConf "" "key.pem"))
    { issuer := "https://idp.example.org",
      endpoint := ⟨"https://idp.example.org/auth", "https://idp.example.org/token"⟩ } rfl

/-- C10: whenever `ServeHTTPS` is true, `main` calls `tls.LoadX509KeyPair` and the
certificate loads, the run ends with `ListenAndServeTLS` on a server whose
`TLSNextProto` is a non-nil map without entries, whose address is ":" followed by
the decimal rendering of `conf.Server.Port`, and whose TLS configuration holds
exactly the loaded certificate. -/
theorem C10_https_server_without_http2 (w : World) (cert : tls.Certificate)
    (hs : (conf w).Server.ServeHTTPS = true)
    (hcall : Event.LoadX509KeyPair (conf w).Server.CertFile (conf w).Server.KeyFile ∈ main w)
    (hok : w.LoadX509KeyPair (conf w).Server.CertFile (conf w).Server.KeyFile = .ok cert) :
    ∃ keyLogWriter, (main w).getLast? = some (.ListenAndServeTLS
      { Addr := ":" ++ strconv.Itoa (conf w).Server.Port
        TLSConfig := some { Certificates := [cert], KeyLogWriter := keyLogWriter }
        TLSNextProto := some [] } "" "") := by
  rcases main_cases w with hearly | ⟨pre, k, p, hmain, _⟩
  · exact absurd (hearly _ hcall) (by simp [Event.isLate])
  · refine ⟨k, ?_⟩
    rw [hmain, List.getLast?_append_of_ne_nil _ (serve_ne_nil _ _ _ _),
      serve_https w (conf w) _ _ cert hs hok,
      List.getLast?_append_of_ne_nil _ (by simp)]
    rfl

/-- Witness of C10: the sample configuration serving HTTPS on port 9443. -/
theorem C10_https_server_without_http2_witness :
    ∃ keyLogWriter, (main (sampleWorld [] (httpsConf "cert.pem" "key.pem"))).getLast? =
      some (.ListenAndServeTLS
        { Addr := ":" ++ strconv.Itoa
            (conf (sampleWorld [] (httpsConf "cert.pem" "key.pem"))).Server.Port
          TLSConfig := some { Certificates := [sampleCert], KeyLogWriter := keyLogWriter }
          TLSNextProto := some [] } "" "") :=
  C10_https_server_without_http2 (sampleWorld [] (httpsConf "cert.pem" "key.pem")) sampleCert
    rfl (by decide) rfl

/-! ## The modelled operations behind the wiring -/

/-- C1, as stated, fails: with client-IP verification switched on by the
configuration, a token generated for the client `10.0.0.1` and presented by
`10.0.0.2` at time 50, before its expiry at 100, is rejected with `IPMismatch`. -/
theorem C1_bound_token_from_other_client_rejected :
    (50 : Nat) < security.sampleClaims.expiry ∧
    security.VerifyPAAToken security.sampleCodec
      (security.Globals.after (main (sampleWorld [] sampleConf)))
      (security.GeneratePAAToken security.sampleCodec
        (security.Globals.after (main (sampleWorld [] sampleConf))) security.sampleClaims)
      { now := 50, clientIP := "10.0.0.2" } = .error .IPMismatch := by
  refine ⟨by decide, ?_⟩
  rw [security.verify_generate _ security.sampleCodec_sound]
  have hip : (security.Globals.after (main (sampleWorld [] sampleConf))).VerifyClientIP = true :=
    (after_main _).1
  simp only [security.checkClaims, security.sampleClaims, hip]
  rfl

/-- C1, amended: `main` hands `security.GeneratePAAToken` to the API and installs
`security.VerifyPAAToken` as `VerifyTunnelCreate`; with the keys `main` set, for all
claims and every clock reading, a generated token is accepted, with its claims, when
the current time is before the expiry and client-IP verification is off, or the
claims bind no IP, or the presenting client has the bound IP; it is rejected with
`Expired` when the current time is after the expiry. -/
theorem C1_generated_token_verifies_until_expiry (c : security.Codec) (hc : c.Sound)
    (w : World) (claims : security.Claims) (ctx : security.Context) :
    (handlerConfig (conf w)).VerifyTunnelCreate = security.Func.VerifyPAAToken ∧
    (∀ p, (apiConfig (conf w) p).PAATokenGenerator = security.Func.GeneratePAAToken) ∧
    (ctx.now < claims.expiry →
      ((conf w).Security.VerifyClientIp = false ∨ claims.clientIP = none ∨
        claims.clientIP = some ctx.clientIP) →
      security.VerifyPAAToken c (security.Globals.after (main w))
        (security.GeneratePAAToken c (security.Globals.after (main w)) claims) ctx =
        .ok claims) ∧
    (claims.expiry < ctx.now →
      security.VerifyPAAToken c (security.Globals.after (main w))
        (security.GeneratePAAToken c (security.Globals.after (main w)) claims) ctx =
        .error .Expired) := by
  refine ⟨rfl, fun _ => rfl, ?_, ?_⟩
  · intro hnow hip
    rw [security.verify_generate c hc]
    unfold security.checkClaims
    rw [if_pos hnow, (after_main w).1]
    rcases hip with hip | hip | hip
    · rw [hip]
      cases claims.clientIP <;> simp
    · rw [hip]
    · rw [hip]
      simp
  · intro hnow
    rw [security.verify_generate c hc]
    unfold security.checkClaims
    rw [if_neg (by omega)]

/-- Witness of C1 on the sample codec: the bound client is accepted at time 50 and
told `Expired` at time 150. -/
theorem C1_generated_token_verifies_until_expiry_witness :
    security.VerifyPAAToken security.sampleCodec
      (security.Globals.after (main (sampleWorld [] sampleConf)))
      (security.GeneratePAAToken security.sampleCodec
        (security.Globals.after (main (sampleWorld [] sampleConf))) security.sampleClaims)
      { now := 50, clientIP := "10.0.0.1" } = .ok security.sampleClaims ∧
    security.VerifyPAAToken security.sampleCodec
      (security.Globals.after (main (sampleWorld [] sampleConf)))
      (security.GeneratePAAToken security.sampleCodec
        (security.Globals.after (main (sampleWorld [] sampleConf))) security.sampleClaims)
      { now := 150, clientIP := "10.0.0.1" } = .error .Expired :=
  ⟨(C1_generated_token_verifies_until_expiry security.sampleCodec security.sampleCodec_sound
      (sampleWorld [] sampleConf) security.sampleClaims
      { now := 50, clientIP := "10.0.0.1" }).2.2.1 (by decide) (Or.inr (Or.inr rfl)),
   (C1_generated_token_verifies_until_expiry security.sampleCodec security.sampleCodec_sound
      (sampleWorld [] sampleConf) security.sampleClaims
      { now := 150, clientIP := "10.0.0.1" }).2.2.2 (by decide)⟩

/-- C2, as stated, fails for the host check `main` installs: what `main` gives the
gateway and package `security` is the same whether `internal-db` is on the
configured allow-list or not, so any host check working from it answers the same
in both cases, and none both refuses every host outside the configured list and
admits `internal-db` where the list names it. -/
theorem C2_gateway_host_check_blind_to_allow_list :
    "internal-db" ∉ (conf (sampleWorld [] sampleConf)).Server.Hosts ∧
    "internal-db" ∈ (conf ((sampleWorld [] sampleConf).withHosts ["internal-db"])).Server.Hosts ∧
    (∀ check : security.HostCheck,
      check (security.Globals.after (main ((sampleWorld [] sampleConf).withHosts ["internal-db"])))
          (handlerConfig (conf ((sampleWorld [] sampleConf).withHosts ["internal-db"]))) =
        check (security.Globals.after (main (sampleWorld [] sampleConf)))
          (handlerConfig (conf (sampleWorld [] sampleConf)))) ∧
    ¬ ∃ check : security.HostCheck,
      (∀ (w : World) (ctx : security.Context) (claims : security.Claims) (host : String),
        host ∉ (conf w).Server.Hosts →
        check (security.Globals.after (main w)) (handlerConfig (conf w)) ctx claims host =
          .error .HostNotAllowed) ∧
      check (security.Globals.after (main ((sampleWorld [] sampleConf).withHosts ["internal-db"])))
          (handlerConfig (conf ((sampleWorld [] sampleConf).withHosts ["internal-db"])))
          { now := 50, clientIP := "10.0.0.1" }
          { expiry := 100, clientIP := none, host := some "internal-db" } "internal-db" =
        .ok "internal-db" := by
  have hsame := withHosts_same_gateway (sampleWorld [] sampleConf) ["internal-db"]
  refine ⟨by decide, by decide, ?_, ?_⟩
  · intro check
    rw [hsame.1, hsame.2]
  · rintro ⟨check, hrefuse, hadmit⟩
    rw [hsame.1, hsame.2] at hadmit
    have hout := hrefuse (sampleWorld [] sampleConf) { now := 50, clientIP := "10.0.0.1" }
      { expiry := 100, clientIP := none, host := some "internal-db" } "internal-db" (by decide)
    rw [hout] at hadmit
    exact Except.noConfusion hadmit

/-- C2, amended: `main` hands the configured allow-list `conf.Server.Hosts`
unchanged to the API and installs `security.VerifyServerFunc`, with no list, as the
host check of the gateway; the gateway's `ServerConf` and the variables of package
`security` stay the same when only the allow-list of the configuration changes; and
for every requested host that is not in `conf.Server.Hosts`, the Host Authorizer run
on the list the API holds fails with `HostNotAllowed`, whatever the claims. -/
theorem C2_allow_list_handed_to_api_only (w : World) (hosts : List String)
    (requestedHost : String) (claims : security.Claims)
    (h : requestedHost ∉ (conf w).Server.Hosts) :
    (∀ p, (apiConfig (conf w) p).Hosts = (conf w).Server.Hosts) ∧
    (handlerConfig (conf w)).VerifyServerFunc = security.Func.VerifyServerFunc ∧
    handlerConfig (conf (w.withHosts hosts)) = handlerConfig (conf w) ∧
    security.Globals.after (main (w.withHosts hosts)) = security.Globals.after (main w) ∧
    (∀ p, security.Authorize (apiConfig (conf w) p).Hosts requestedHost claims =
      .error .HostNotAllowed) := by
  refine ⟨fun _ => rfl, rfl, (withHosts_same_gateway w hosts).1,
    (withHosts_same_gateway w hosts).2, ?_⟩
  intro p
  have hp : (apiConfig (conf w) p).Hosts = (conf w).Server.Hosts := rfl
  unfold security.Authorize
  rw [hp]
  simp [h]

/-- Witness of C2: the host `internal-db` against the sample configuration, the
allow-list replaced by one that names it, with claims that name that very host. -/
theorem C2_allow_list_handed_to_api_only_witness :
    "internal-db" ∉ (conf (sampleWorld [] sampleConf)).Server.Hosts ∧
    (∀ p, (apiConfig (conf (sampleWorld [] sampleConf)) p).Hosts =
      (conf (sampleWorld [] sampleConf)).Server.Hosts) ∧
    (handlerConfig (conf (sampleWorld [] sampleConf))).VerifyServerFunc =
      security.Func.VerifyServerFunc ∧
    handlerConfig (conf ((sampleWorld [] sampleConf).withHosts ["internal-db"])) =
      handlerConfig (conf (sampleWorld [] sampleConf)) ∧
    security.Globals.after (main ((sampleWorld [] sampleConf).withHosts ["internal-db"])) =
      security.Globals.after (main (sampleWorld [] sampleConf)) ∧
    (∀ p, security.Authorize (apiConfig (conf (sampleWorld [] sampleConf)) p).Hosts
      "internal-db" { expiry := 100, clientIP := none, host := some "internal-db" } =
      .error .HostNotAllowed) :=
  ⟨by decide, C2_allow_list_handed_to_api_only (sampleWorld [] sampleConf) ["internal-db"]
    "internal-db" { expiry := 100, clientIP := none, host := some "internal-db" } (by decide)⟩

/-- C3: for every configuration, the five capability flags in effect for a tunnel
are, the cases read in the order given: all off when `DisableAll` is set, all on
when `EnableAll` is set, and otherwise each its own configured value
(`EnableClipboard`, `EnableDrive`, `EnablePrinter`, `EnablePort`, `EnablePnp`);
`DisableAll` and `EnableAll` are the configured `DisableRedirect` and `RedirectAll`. -/
theorem C3_capabilities_from_configuration (conf : config.Configuration) :
    (handlerConfig conf).RedirectFlags.DisableAll = conf.Caps.DisableRedirect ∧
    (handlerConfig conf).RedirectFlags.EnableAll = conf.Caps.RedirectAll ∧
    protocol.capabilities (handlerConfig conf).RedirectFlags =
      if conf.Caps.DisableRedirect = true then protocol.Capabilities.all false
      else if conf.Caps.RedirectAll = true then protocol.Capabilities.all true
      else { Clipboard := conf.Caps.EnableClipboard, Drive := conf.Caps.EnableDrive,
             Printer := conf.Caps.EnablePrinter, Port := conf.Caps.EnablePort,
             Pnp := conf.Caps.EnablePnp } := by
  exact ⟨rfl, rfl, rfl⟩

/-- C4, as stated, fails: the PDU of type 5 with three payload bytes has a length
equal to its payload size and is serialised, yet with a configured maximum of 2
decoding the serialised form fails with `FramingError`. -/
theorem C4_oversized_pdu_not_decoded :
    protocol.samplePDU.wellFormed ∧
    protocol.encode protocol.sampleLayout protocol.samplePDU =
      .ok [5, 0, 3, 0, 0, 0, 1, 2, 3] ∧
    protocol.decode protocol.sampleLayout 2 [5, 0, 3, 0, 0, 0, 1, 2, 3] = .error .framing :=
  ⟨by decide, rfl, rfl⟩

/-- C4, amended: for every well-formed PDU (length equal to the payload size) whose
type and length fit the header fields and whose length does not exceed the
configured maximum, `encode` serialises it and `decode` of the serialised form,
with any bytes after it, gives back the same PDU and those bytes; and for every PDU
at all, whenever `encode` emits a serialised form, the PDU is well-formed, the
length field of the emitted header is the payload size and the form is header plus
payload. -/
theorem C4_pdu_roundtrip (l : protocol.Layout) (maxLength : Nat) (p : protocol.PDU)
    (hw : p.wellFormed) (hfits : p.fits l) (hmax : p.length ≤ maxLength) :
    (∃ s, protocol.encode l p = .ok s ∧
      protocol.decode l maxLength s = .ok (p, []) ∧
      ∀ rest, protocol.decode l maxLength (s ++ rest) = .ok (p, rest)) ∧
    (∀ (q : protocol.PDU) (s : Bytes), protocol.encode l q = .ok s →
      q.wellFormed ∧ protocol.headerLength l s = q.payload.length ∧
      s.length = l.headerSize + q.payload.length) := by
  constructor
  · have hlen : p.length = p.payload.length := hw
    obtain ⟨htype, hfit⟩ := hfits
    have hp : p = { type := p.type, length := p.payload.length, payload := p.payload } := by
      cases p
      simp only [protocol.PDU.mk.injEq, true_and, and_true]
      exact hlen
    rw [hlen] at hfit hmax
    refine ⟨protocol.putUint l.typeBytes p.type ++
      protocol.putUint l.lengthBytes p.payload.length ++ p.payload, ?_, ?_, ?_⟩
    · unfold protocol.encode
      rw [if_pos ⟨hw, htype, hlen ▸ hfit⟩]
    · have := protocol.decode_frame l maxLength p.type p.payload [] htype hfit hmax
      rw [List.append_nil] at this
      rw [this, ← hp]
    · intro rest
      rw [protocol.decode_frame l maxLength p.type p.payload rest htype hfit hmax, ← hp]
  · intro q s hs
    unfold protocol.encode at hs
    split at hs
    · rename_i hrep
      obtain ⟨hqw, _, hqfit⟩ := hrep
      have hqlen : q.length = q.payload.length := hqw
      rw [hqlen] at hqfit
      simp only [Except.ok.injEq] at hs
      subst hs
      refine ⟨hqw, protocol.headerLength_frame l q.type q.payload hqfit, ?_⟩
      simp only [List.length_append, protocol.length_putUint, protocol.Layout.headerSize]
    · exact Except.noConfusion hs

/-- Witness of C4: the PDU of type 5 with three payload bytes, a header of two type
bytes and four length bytes, and a maximum of 100. -/
theorem C4_pdu_roundtrip_witness :
    (∃ s, protocol.encode protocol.sampleLayout protocol.samplePDU = .ok s ∧
      protocol.decode protocol.sampleLayout 100 s = .ok (protocol.samplePDU, []) ∧
      ∀ rest, protocol.decode protocol.sampleLayout 100 (s ++ rest) =
        .ok (protocol.samplePDU, rest)) ∧
    (∀ (q : protocol.PDU) (s : Bytes), protocol.encode protocol.sampleLayout q = .ok s →
      q.wellFormed ∧ protocol.headerLength protocol.sampleLayout s = q.payload.length ∧
      s.length = protocol.sampleLayout.headerSize + q.payload.length) :=
  C4_pdu_roundtrip protocol.sampleLayout 100 protocol.samplePDU (by decide) (by decide)
    (by decide)

end Rdpgw
